import Mathlib

/-!
Verification of the parcel-locker service core (src/main.py).

The service stores all durable state in a key-value store (Redis):
- a hash `locker:{lockerId}` with fields `lockerId` and `cells`;
- a hash `cell:{lockerId}_{cellId}` with fields `status` and `pin`.

We embed the store shallowly: each hash field is an `Option String`
(`none` = field absent, mirroring `hget` returning `None`), and the two
key spaces are association lists.  Cell hashes are keyed by the pair
`(lockerId, cellId)`; the source keys them by the string
`"cell:{lockerId}_{cellId}"`, which determines the pair uniquely because
the decimal rendering of the integer `lockerId` contains no underscore,
so the pair keying is faithful.  Locker hashes are keyed by the integer
`lockerId` (the source key `"locker:{lockerId}"` likewise determines it).

Python truthiness of `hget` results (`None` and `b""` are falsy) is
modelled by `pyTruthy`.  Each `raise HTTPException` site of the source is
mapped to a distinct constructor of `Err`; `Err.typeError` stands for the
`AttributeError` Python raises when `.decode()` is called on a `None`
returned by `hget` (reachable only from malformed store states).

The source's `self._cells` is a Python `set` built by `split(',')`; we
keep the split list.  Membership tests agree with the set, and the only
order-sensitive construct (`_pinToCellId`, a dict built while iterating
the set in unspecified order) is used by the verified statements only at
keys held by a single cell, where every iteration order yields the same
entry.
-/

deriving instance DecidableEq for Except

namespace LockerService

/-- Error kinds, one per `raise` site of the source (§7 of the design). -/
inductive Err where
  | lockerNotFound
  | cellNotFound
  | invalidPin
  | pinNoMatch
  | pinConflict
  | typeError
deriving DecidableEq, Repr

/-- The redis hash `locker:{lockerId}`: fields `lockerId` and `cells`. -/
structure LockerRec where
  lockerIdField : Option String
  cellsField : Option String
deriving DecidableEq, Repr

/-- The redis hash `cell:{lockerId}_{cellId}`: fields `status` and `pin`. -/
structure CellRec where
  status : Option String
  pin : Option String
deriving DecidableEq, Repr

/-- The whole key-value store. -/
structure Store where
  lockers : List (Int × LockerRec)
  cells : List ((Int × String) × CellRec)
deriving DecidableEq, Repr

/-- Association-list lookup (first match wins, like a key-value store). -/
def alookup {α β : Type} [DecidableEq α] : List (α × β) → α → Option β
  | [], _ => none
  | (k, v) :: t, k' => if k = k' then some v else alookup t k'

/-- Association-list write: overwrite the first binding of the key, or
append a fresh binding (redis `hset` creates the hash if absent). -/
def aset {α β : Type} [DecidableEq α] : List (α × β) → α → β → List (α × β)
  | [], k, v => [(k, v)]
  | (k', v') :: t, k, v => if k' = k then (k, v) :: t else (k', v') :: aset t k v

/-- Python truthiness of an `hget` result: `None` and `b""` are falsy. -/
def pyTruthy (o : Option String) : Bool := o.getD "" != ""

/-- Constant `CLOSED_CELL` of the source. -/
def CLOSED_CELL : String := "closed"

/-- Constant `OPEN_CELL` of the source. -/
def OPEN_CELL : String := "open"

/-- The unset-pin sentinel written by lazy cell initialization. -/
def UNSET_PIN : String := "------"

/-- The masked-pin sentinel written on close. -/
def MASKED_PIN : String := "xxxxxx"

/-- Redis `hset` on the `status` field of a cell hash. -/
def hsetStatus (st : Store) (lockerId : Int) (cellId : String) (v : String) : Store :=
  { st with
    cells := aset st.cells (lockerId, cellId)
               ({ (alookup st.cells (lockerId, cellId)).getD ⟨none, none⟩ with
                  status := some v }) }

/-- Redis `hset` on the `pin` field of a cell hash. -/
def hsetPin (st : Store) (lockerId : Int) (cellId : String) (v : String) : Store :=
  { st with
    cells := aset st.cells (lockerId, cellId)
               ({ (alookup st.cells (lockerId, cellId)).getD ⟨none, none⟩ with
                  pin := some v }) }

/-- The `status` field currently stored for `(lockerId, cellId)`. -/
def cellStatus (st : Store) (lockerId : Int) (cellId : String) : Option String :=
  (alookup st.cells (lockerId, cellId)).bind (·.status)

/-- The `pin` field currently stored for `(lockerId, cellId)`. -/
def cellPin (st : Store) (lockerId : Int) (cellId : String) : Option String :=
  (alookup st.cells (lockerId, cellId)).bind (·.pin)

/-- Helper for `splitComma`: split a character list at every comma,
accumulating the current segment in reverse. -/
def splitCommaAux : List Char → List Char → List (List Char)
  | [], acc => [acc.reverse]
  | c :: rest, acc =>
    if c = ',' then acc.reverse :: splitCommaAux rest []
    else splitCommaAux rest (c :: acc)

/-- Python `s.split(',')`: split at every comma, no collapsing, so the
empty string yields `[""]` and adjacent commas yield empty segments. -/
def splitComma (s : String) : List String :=
  (splitCommaAux s.data []).map fun l => ⟨l⟩

/-- ParcelLocker.initLocker: resolve a locker.  `hget` of the `lockerId`
field must be truthy and decode to `str(lockerId)`, else 404
LockerNotFound; then `_cells` is the comma-split of the `cells` field
(whose absence would raise `AttributeError` on `.decode()`). -/
def initLocker (st : Store) (lockerId : Int) : Except Err (List String) :=
  if !pyTruthy ((alookup st.lockers lockerId).bind (·.lockerIdField)) ||
      ((alookup st.lockers lockerId).bind (·.lockerIdField)).getD "" != toString lockerId then
    .error .lockerNotFound
  else
    match (alookup st.lockers lockerId).bind (·.cellsField) with
    | none => .error .typeError
    | some cs => .ok (splitComma cs)

/-- The read-back step of `initCell`: `.decode()` both fields, raising
`AttributeError` if either `hget` returned `None`. -/
def initCellRead (st : Store) (lockerId : Int) (cellId : String) :
    Except Err (String × String) × Store :=
  match cellStatus st lockerId cellId, cellPin st lockerId cellId with
  | some s, some p => (.ok (s, p), st)
  | _, _ => (.error .typeError, st)

/-- ParcelLocker.initCell: require membership in the locker's cell set
(404 CellNotFound otherwise); if the `status` field is falsy, initialize
the hash with status `closed` then pin `"------"`; finally read back and
return `(status, pin)` (`.decode()` on an absent `pin` field raises). -/
def initCell (st : Store) (lockerId : Int) (cells : List String) (cellId : String) :
    Except Err (String × String) × Store :=
  if cellId ∈ cells then
    initCellRead
      (if pyTruthy (cellStatus st lockerId cellId) then st
       else hsetPin (hsetStatus st lockerId cellId CLOSED_CELL) lockerId cellId UNSET_PIN)
      lockerId cellId
  else (.error .cellNotFound, st)

/-- The code point ranges of Unicode general category Nd (decimal
digits), Unicode 14.0.0 as bundled with the CPython the service runs
on: each range is one script's run of digits zero to nine (the
mathematical alphanumeric block 1D7CE-1D7FF holds five such runs). -/
def ndRanges : List (Nat × Nat) :=
  [(0x30, 0x39), (0x660, 0x669), (0x6F0, 0x6F9), (0x7C0, 0x7C9), (0x966, 0x96F),
   (0x9E6, 0x9EF), (0xA66, 0xA6F), (0xAE6, 0xAEF), (0xB66, 0xB6F), (0xBE6, 0xBEF),
   (0xC66, 0xC6F), (0xCE6, 0xCEF), (0xD66, 0xD6F), (0xDE6, 0xDEF), (0xE50, 0xE59),
   (0xED0, 0xED9), (0xF20, 0xF29), (0x1040, 0x1049), (0x1090, 0x1099),
   (0x17E0, 0x17E9), (0x1810, 0x1819), (0x1946, 0x194F), (0x19D0, 0x19D9),
   (0x1A80, 0x1A89), (0x1A90, 0x1A99), (0x1B50, 0x1B59), (0x1BB0, 0x1BB9),
   (0x1C40, 0x1C49), (0x1C50, 0x1C59), (0xA620, 0xA629), (0xA8D0, 0xA8D9),
   (0xA900, 0xA909), (0xA9D0, 0xA9D9), (0xA9F0, 0xA9F9), (0xAA50, 0xAA59),
   (0xABF0, 0xABF9), (0xFF10, 0xFF19), (0x104A0, 0x104A9), (0x10D30, 0x10D39),
   (0x11066, 0x1106F), (0x110F0, 0x110F9), (0x11136, 0x1113F), (0x111D0, 0x111D9),
   (0x112F0, 0x112F9), (0x11450, 0x11459), (0x114D0, 0x114D9), (0x11650, 0x11659),
   (0x116C0, 0x116C9), (0x11730, 0x11739), (0x118E0, 0x118E9), (0x11950, 0x11959),
   (0x11C50, 0x11C59), (0x11D50, 0x11D59), (0x11DA0, 0x11DA9), (0x16A60, 0x16A69),
   (0x16AC0, 0x16AC9), (0x16B50, 0x16B59), (0x1D7CE, 0x1D7FF), (0x1E140, 0x1E149),
   (0x1E2F0, 0x1E2F9), (0x1E950, 0x1E959), (0x1FBF0, 0x1FBF9)]

/-- Python `\d` on a `str` pattern (the default `re.UNICODE` mode):
any Unicode decimal digit, i.e. general category Nd — ASCII `0-9` and
the digit runs of the other scripts alike. -/
def pyDigit (c : Char) : Bool :=
  ndRanges.any fun r => decide (r.1 ≤ c.toNat) && decide (c.toNat ≤ r.2)

/-- Semantics of `re.compile('^\\d{6}$').match(s)` being truthy: `match`
anchors at the start, and `$` matches at the end of the string or just
before a single newline that terminates it, so the accepted strings are
six Unicode decimal digits optionally followed by one trailing
newline. -/
def pyMatchSixDigits (s : String) : Bool :=
  (s.data.length == 6 && s.data.all pyDigit) ||
  (s.data.length == 7 && (s.data.take 6).all pyDigit && s.data.drop 6 == ['\n'])

/-- ParcelLocker.validatePin: 400 InvalidPin unless the regex matches. -/
def validatePin (pin : String) : Except Err Unit :=
  if pyMatchSixDigits pin then .ok () else .error .invalidPin

/-- ParcelLocker.getAllPins: iterate the cell set, skipping `skipCellId`;
for each cell whose `pin` field is truthy, add the pin to `allPins` and
bind `_pinToCellId[pin]` to the cell.  The source iterates a Python set
in unspecified order with later iterations overwriting earlier dict
entries; here the head of the list is iterated first, so entries arising
from the tail override the head's. -/
def getAllPins (st : Store) (lockerId : Int) (skipCellId : String) :
    List String → List String × List (String × String)
  | [] => ([], [])
  | c :: rest =>
    let tl := getAllPins st lockerId skipCellId rest
    if c = skipCellId then tl
    else
      match cellPin st lockerId c with
      | none => tl
      | some p =>
        if p = "" then tl
        else (p :: tl.1, if (alookup tl.2 p).isSome then tl.2 else (p, c) :: tl.2)

/-- ParcelLocker.enterPin: validate, resolve the locker, scan all pins
(no exclusion: the `skipCellId` default is `""`); 404 PinNoMatch if the
pin is absent, else set the matched cell's status to `open` and return
its id. -/
def enterPin (st : Store) (lockerId : Int) (pin : String) : Except Err String × Store :=
  match validatePin pin with
  | .error e => (.error e, st)
  | .ok _ =>
    match initLocker st lockerId with
    | .error e => (.error e, st)
    | .ok cells =>
      let ap := getAllPins st lockerId "" cells
      if pin ∈ ap.1 then
        match alookup ap.2 pin with
        | some cellId => (.ok cellId, hsetStatus st lockerId cellId OPEN_CELL)
        | none => (.error .typeError, st)
      else (.error .pinNoMatch, st)

/-- The two trailing writes of `setCellStatus`: write the new status
only if it differs from the current one, then, on a close request,
overwrite the pin with the masked sentinel. -/
def statusWritePhase (st : Store) (lockerId : Int) (cellId : String)
    (cellStat newStatus : String) : Store :=
  if newStatus = CLOSED_CELL then
    hsetPin (if cellStat != newStatus then hsetStatus st lockerId cellId newStatus else st)
      lockerId cellId MASKED_PIN
  else
    (if cellStat != newStatus then hsetStatus st lockerId cellId newStatus else st)

/-- ParcelLocker.setCellStatus: resolve locker and cell, then perform
the conditional status write and the close-time pin masking. -/
def setCellStatus (st : Store) (lockerId : Int) (cellId : String) (newStatus : String) :
    Except Err Unit × Store :=
  match initLocker st lockerId with
  | .error e => (.error e, st)
  | .ok cells =>
    match initCell st lockerId cells cellId with
    | (.error e, st1) => (.error e, st1)
    | (.ok (cellStat, _), st1) =>
      (.ok (), statusWritePhase st1 lockerId cellId cellStat newStatus)

/-- ParcelLocker.setCellPin: validate, resolve locker and cell, compute
`allPins` excluding this cell; 404 PinConflict if the pin already
appears, else write the pin and return `(currentStatus, newPin)`. -/
def setCellPin (st : Store) (lockerId : Int) (cellId : String) (newPin : String) :
    Except Err (String × String) × Store :=
  match validatePin newPin with
  | .error e => (.error e, st)
  | .ok _ =>
    match initLocker st lockerId with
    | .error e => (.error e, st)
    | .ok cells =>
      match initCell st lockerId cells cellId with
      | (.error e, st1) => (.error e, st1)
      | (.ok (cellStat, _), st1) =>
        let ap := getAllPins st1 lockerId cellId cells
        if newPin ∈ ap.1 then (.error .pinConflict, st1)
        else (.ok (cellStat, newPin), hsetPin st1 lockerId cellId newPin)

/-- The GET cell endpoint: resolve the locker, then get-or-init the cell. -/
def getCell (st : Store) (lockerId : Int) (cellId : String) :
    Except Err (String × String) × Store :=
  match initLocker st lockerId with
  | .error e => (.error e, st)
  | .ok cells => initCell st lockerId cells cellId

/-- One public state-changing request of the HTTP surface. -/
inductive Op where
  | setPinOp (lockerId : Int) (cellId : String) (pin : String)
  | enterOp (lockerId : Int) (pin : String)
  | openOp (lockerId : Int) (cellId : String)
  | closeOp (lockerId : Int) (cellId : String)
  | getCellOp (lockerId : Int) (cellId : String)
deriving DecidableEq, Repr

/-- The store after handling one request (each request uses a fresh
`ParcelLocker()` object, so only the store persists between requests). -/
def runOp (st : Store) : Op → Store
  | .setPinOp lockerId cellId pin => (setCellPin st lockerId cellId pin).2
  | .enterOp lockerId pin => (enterPin st lockerId pin).2
  | .openOp lockerId cellId => (setCellStatus st lockerId cellId OPEN_CELL).2
  | .closeOp lockerId cellId => (setCellStatus st lockerId cellId CLOSED_CELL).2
  | .getCellOp lockerId cellId => (getCell st lockerId cellId).2

/-- The store after a sequence of requests handled one at a time. -/
def runOps (st : Store) (ops : List Op) : Store := ops.foldl runOp st

/-- The store as provisioned at module load by the two `hmset` calls. -/
def initialStore : Store :=
  { lockers :=
      [(1234, { lockerIdField := some "1234", cellsField := some "C-001,C-002" }),
       (123, { lockerIdField := some "123", cellsField := some "C-3326,C-3327,C-3328,C-3329,C-3330,C-3331,C-3332,C-3333,C-3334,C-3335,C-3336,C-3337,C-3338,C-3339,C-3340,C-3341,C-3342,C-3343,C-3344,C-3345,C-3346,C-3347,C-3348,C-3349,C-3350,C-3351,C-3352,C-3353,C-3354,C-3355,C-3356,C-3357,C-3358,C-3359,C-3360,C-3361,C-3362,C-3363,C-3364,C-3365,C-3366,C-3367,C-3368,C-3369,C-3370,C-3371,C-3372,C-3373" })],
    cells := [] }

/-- A pin value is one of the two sentinels. -/
def isSentinel (p : String) : Bool := p == UNSET_PIN || p == MASKED_PIN

/-- The cell set recorded for a locker in the registry (the comma-split
of its `cells` field), independent of resolution succeeding. -/
def lockerCellList (st : Store) (lockerId : Int) : List String :=
  splitComma (((alookup st.lockers lockerId).bind (·.cellsField)).getD "")

/-- Invariant of §3: all non-sentinel pins stored among a locker's cells
are pairwise distinct (over distinct cell ids of its registry cell set). -/
def pinsDistinct (st : Store) (lockerId : Int) : Prop :=
  ∀ c1 c2, c1 ∈ lockerCellList st lockerId → c2 ∈ lockerCellList st lockerId →
    c1 ≠ c2 →
    ∀ p1 p2, cellPin st lockerId c1 = some p1 → cellPin st lockerId c2 = some p2 →
      isSentinel p1 = false → isSentinel p2 = false → p1 ≠ p2

/-- The observable state of a cell: what `getOrInit` would report
without writing, using §3's equivalence of a missing record with a
freshly initialized one (status `closed`, pin `"------"`). -/
def cellView (st : Store) (lockerId : Int) (cellId : String) : String × Option String :=
  let r := (alookup st.cells (lockerId, cellId)).getD ⟨none, none⟩
  if pyTruthy r.status then (r.status.getD "", r.pin) else (CLOSED_CELL, some UNSET_PIN)

/-- The state after the first call of Scenario A. -/
def scenA1 : Store := (setCellPin initialStore 1234 "C-001" "111111").2

/-- The state after Scenario A (both `setCellPin` calls). -/
def scenA : Store := (setCellPin scenA1 1234 "C-002" "111111").2

/-- The state after Scenario B (`enterPin(1234, "111111")`). -/
def scenB : Store := (enterPin scenA 1234 "111111").2

/-- The state after Scenario C (closing C-001). -/
def scenC : Store := (setCellStatus scenB 1234 "C-001" CLOSED_CELL).2

/-- A store holding one locker whose cell A stores the unset sentinel
as its pin, used to exhibit sentinels inside `getAllPins` results. -/
def sentinelStore : Store :=
  { lockers := [(1, { lockerIdField := some "1", cellsField := some "A,B" })],
    cells := [((1, "A"), { status := some "closed", pin := some "------" })] }

/-- A store holding one locker whose only cell is closed with an
assigned pin, used to exercise a close request on a closed cell. -/
def closedPinStore : Store :=
  { lockers := [(7, { lockerIdField := some "7", cellsField := some "A" })],
    cells := [((7, "A"), { status := some "closed", pin := some "222222" })] }

/-!  Association-list lemmas. -/

theorem alookup_aset_self {α β : Type} [DecidableEq α] (l : List (α × β)) (k : α) (v : β) :
    alookup (aset l k v) k = some v := by
  induction l with
  | nil => simp [aset, alookup]
  | cons hd t ih =>
    obtain ⟨k1, v1⟩ := hd
    by_cases hk : k1 = k
    · subst hk; simp [aset, alookup]
    · simp [aset, alookup, hk, ih]

theorem alookup_aset_ne {α β : Type} [DecidableEq α] (l : List (α × β)) (k k2 : α) (v : β)
    (h : k2 ≠ k) : alookup (aset l k v) k2 = alookup l k2 := by
  induction l with
  | nil => simp [aset, alookup, Ne.symm h]
  | cons hd t ih =>
    obtain ⟨k1, v1⟩ := hd
    by_cases hk : k1 = k
    · subst hk; simp [aset, alookup, Ne.symm h]
    · simp [aset, alookup, hk, ih]

theorem aset_of_alookup_none {α β : Type} [DecidableEq α] (l : List (α × β)) (k : α) (v : β)
    (h : alookup l k = none) : aset l k v = l ++ [(k, v)] := by
  induction l with
  | nil => simp [aset]
  | cons hd t ih =>
    obtain ⟨k1, v1⟩ := hd
    by_cases hk : k1 = k
    · subst hk; simp [alookup] at h
    · simp only [alookup, hk, if_neg (by simpa using hk)] at h
      simp [aset, hk, ih h]

theorem aset_aset {α β : Type} [DecidableEq α] (l : List (α × β)) (k : α) (v w : β) :
    aset (aset l k v) k w = aset l k w := by
  induction l with
  | nil => simp [aset]
  | cons hd t ih =>
    obtain ⟨k1, v1⟩ := hd
    by_cases hk : k1 = k
    · subst hk; simp [aset]
    · simp [aset, hk, ih]

/-!  Truthiness and pin-format facts. -/

theorem pyTruthy_some {o : Option String} (h : pyTruthy o = true) :
    ∃ s, o = some s ∧ s ≠ "" := by
  cases o with
  | none => simp [pyTruthy] at h
  | some s =>
    refine ⟨s, rfl, ?_⟩
    simp [pyTruthy] at h
    simpa using h

theorem pyTruthy_some_of_ne {s : String} (h : s ≠ "") : pyTruthy (some s) = true := by
  simp [pyTruthy]
  simpa using h

theorem validatePin_eq_ok {p : String} {u : Unit} (h : validatePin p = .ok u) :
    pyMatchSixDigits p = true := by
  cases h2 : pyMatchSixDigits p
  · rw [validatePin, h2] at h
    exact absurd h (by simp)
  · rfl

theorem pyMatch_ne_empty {p : String} (h : pyMatchSixDigits p = true) : p ≠ "" := by
  intro he
  rw [he] at h
  exact absurd h (by decide)

theorem pyMatch_not_sentinel {p : String} (h : pyMatchSixDigits p = true) :
    isSentinel p = false := by
  cases h2 : isSentinel p
  · rfl
  · have h3 : p = UNSET_PIN ∨ p = MASKED_PIN := by
      simpa [isSentinel] using h2
    rcases h3 with h3 | h3 <;> rw [h3] at h <;> exact absurd h (by decide)

/-- The decimal rendering of an integer is never the empty string (so an
empty stored `lockerId` field never equals `str(lockerId)`). -/
theorem toString_int_ne_empty (n : Int) : toString n ≠ "" := by
  have hnat : ∀ (b fuel m : Nat) (l : List Char), l ≠ [] ∨ 0 < fuel →
      Nat.toDigitsCore b fuel m l ≠ [] := by
    intro b fuel
    induction fuel with
    | zero =>
      intro m l hl
      rcases hl with hl | hl
      · simpa [Nat.toDigitsCore] using hl
      · exact absurd hl (by omega)
    | succ f ih =>
      intro m l _
      simp only [Nat.toDigitsCore]
      split
      · simp
      · exact ih (m / b) _ (Or.inl (by simp))
  have hrepr : ∀ m : Nat, Nat.repr m ≠ "" := by
    intro m hm
    have h1 : Nat.toDigits 10 m ≠ [] := hnat 10 (m + 1) m [] (Or.inr (by omega))
    have h2 : (Nat.toDigits 10 m).asString = "" := hm
    have h3 : (Nat.toDigits 10 m).asString.data = Nat.toDigits 10 m := rfl
    rw [h2] at h3
    exact h1 h3.symm
  show Int.repr n ≠ ""
  cases n with
  | ofNat m => simpa [Int.repr] using hrepr m
  | negSucc m =>
    simp only [Int.repr]
    intro hc
    have : ("-" ++ Nat.repr (m + 1)).data = "".data := by rw [hc]
    simp [String.data_append] at this

/-!  Field-write lemmas. -/

theorem hsetStatus_lockers (st : Store) (l : Int) (c : String) (v : String) :
    (hsetStatus st l c v).lockers = st.lockers := rfl

theorem hsetPin_lockers (st : Store) (l : Int) (c : String) (v : String) :
    (hsetPin st l c v).lockers = st.lockers := rfl

theorem hsetStatus_cells_none (st : Store) (l : Int) (c : String) (v : String)
    (h : alookup st.cells (l, c) = none) :
    (hsetStatus st l c v).cells = aset st.cells (l, c) ⟨some v, none⟩ := by
  unfold hsetStatus
  rw [h]
  rfl

theorem hsetPin_cells_some (st : Store) (l : Int) (c : String) (v : String) (r : CellRec)
    (h : alookup st.cells (l, c) = some r) :
    (hsetPin st l c v).cells = aset st.cells (l, c) ⟨r.status, some v⟩ := by
  unfold hsetPin
  rw [h]
  rfl

theorem alookup_hsetStatus_self (st : Store) (l : Int) (c : String) (v : String) :
    alookup (hsetStatus st l c v).cells (l, c) =
      some { (alookup st.cells (l, c)).getD ⟨none, none⟩ with status := some v } := by
  simp [hsetStatus, alookup_aset_self]

theorem alookup_hsetPin_self (st : Store) (l : Int) (c : String) (v : String) :
    alookup (hsetPin st l c v).cells (l, c) =
      some { (alookup st.cells (l, c)).getD ⟨none, none⟩ with pin := some v } := by
  simp [hsetPin, alookup_aset_self]

theorem alookup_hsetStatus_ne (st : Store) (l : Int) (c : String) (v : String)
    (k : Int × String) (h : k ≠ (l, c)) :
    alookup (hsetStatus st l c v).cells k = alookup st.cells k := by
  simp only [hsetStatus]
  exact alookup_aset_ne _ _ _ _ h

theorem alookup_hsetPin_ne (st : Store) (l : Int) (c : String) (v : String)
    (k : Int × String) (h : k ≠ (l, c)) :
    alookup (hsetPin st l c v).cells k = alookup st.cells k := by
  simp only [hsetPin]
  exact alookup_aset_ne _ _ _ _ h

theorem cellPin_hsetStatus (st : Store) (l : Int) (c : String) (v : String)
    (l2 : Int) (c2 : String) :
    cellPin (hsetStatus st l c v) l2 c2 = cellPin st l2 c2 := by
  by_cases h : (l2, c2) = (l, c)
  · obtain ⟨h1, h2⟩ := Prod.mk.injEq .. ▸ h
    subst h1; subst h2
    rw [cellPin, alookup_hsetStatus_self, cellPin]
    cases halt : alookup st.cells (l2, c2) <;> simp [halt]
  · rw [cellPin, alookup_hsetStatus_ne st l c v _ h, cellPin]

theorem cellStatus_hsetPin (st : Store) (l : Int) (c : String) (v : String)
    (l2 : Int) (c2 : String) :
    cellStatus (hsetPin st l c v) l2 c2 = cellStatus st l2 c2 := by
  by_cases h : (l2, c2) = (l, c)
  · obtain ⟨h1, h2⟩ := Prod.mk.injEq .. ▸ h
    subst h1; subst h2
    rw [cellStatus, alookup_hsetPin_self, cellStatus]
    cases halt : alookup st.cells (l2, c2) <;> simp [halt]
  · rw [cellStatus, alookup_hsetPin_ne st l c v _ h, cellStatus]

theorem cellPin_hsetPin_self (st : Store) (l : Int) (c : String) (v : String) :
    cellPin (hsetPin st l c v) l c = some v := by
  rw [cellPin, alookup_hsetPin_self]
  rfl

theorem cellStatus_hsetStatus_self (st : Store) (l : Int) (c : String) (v : String) :
    cellStatus (hsetStatus st l c v) l c = some v := by
  rw [cellStatus, alookup_hsetStatus_self]
  rfl

theorem cellPin_hsetPin_ne (st : Store) (l : Int) (c : String) (v : String)
    (l2 : Int) (c2 : String) (h : (l2, c2) ≠ (l, c)) :
    cellPin (hsetPin st l c v) l2 c2 = cellPin st l2 c2 := by
  rw [cellPin, alookup_hsetPin_ne st l c v _ h, cellPin]

theorem cellStatus_hsetStatus_ne (st : Store) (l : Int) (c : String) (v : String)
    (l2 : Int) (c2 : String) (h : (l2, c2) ≠ (l, c)) :
    cellStatus (hsetStatus st l c v) l2 c2 = cellStatus st l2 c2 := by
  rw [cellStatus, alookup_hsetStatus_ne st l c v _ h, cellStatus]

/-!  Locker-resolution lemmas. -/

theorem lockerCellList_congr (st st2 : Store) (h : st2.lockers = st.lockers) (l : Int) :
    lockerCellList st2 l = lockerCellList st l := by
  unfold lockerCellList
  rw [h]

theorem initLocker_congr (st st2 : Store) (h : st2.lockers = st.lockers) (l : Int) :
    initLocker st2 l = initLocker st l := by
  unfold initLocker
  rw [h]

theorem initLocker_ok_cellList (st : Store) (l : Int) (cells : List String)
    (h : initLocker st l = .ok cells) : lockerCellList st l = cells := by
  unfold initLocker at h
  split at h
  · exact absurd h (by simp)
  · split at h
    · exact absurd h (by simp)
    · next cs heq =>
      rw [lockerCellList, heq]
      simpa using h

/-!  Cell get-or-init lemmas. -/

theorem initCellRead_snd (st : Store) (l : Int) (c : String) :
    (initCellRead st l c).2 = st := by
  unfold initCellRead
  split <;> rfl

theorem initCell_not_mem (st : Store) (lid : Int) (cells : List String) (cid : String)
    (h : cid ∉ cells) : initCell st lid cells cid = (.error .cellNotFound, st) := by
  simp [initCell, h]

theorem initCell_present (st : Store) (lid : Int) (cells : List String) (cid : String)
    (s p : String) (hm : cid ∈ cells) (hs : cellStatus st lid cid = some s) (hs2 : s ≠ "")
    (hp : cellPin st lid cid = some p) :
    initCell st lid cells cid = (.ok (s, p), st) := by
  have ht : pyTruthy (cellStatus st lid cid) = true := by
    rw [hs]; exact pyTruthy_some_of_ne hs2
  unfold initCell
  rw [if_pos hm, if_pos ht]
  unfold initCellRead
  rw [hs, hp]

theorem initCell_fresh (st : Store) (lid : Int) (cells : List String) (cid : String)
    (hm : cid ∈ cells) (hs : pyTruthy (cellStatus st lid cid) = false) :
    initCell st lid cells cid =
      (.ok (CLOSED_CELL, UNSET_PIN),
       hsetPin (hsetStatus st lid cid CLOSED_CELL) lid cid UNSET_PIN) := by
  have h1 : cellStatus (hsetPin (hsetStatus st lid cid CLOSED_CELL) lid cid UNSET_PIN) lid cid
      = some CLOSED_CELL := by rw [cellStatus_hsetPin, cellStatus_hsetStatus_self]
  have h2 : cellPin (hsetPin (hsetStatus st lid cid CLOSED_CELL) lid cid UNSET_PIN) lid cid
      = some UNSET_PIN := cellPin_hsetPin_self ..
  simp [initCell, hm, hs, initCellRead, h1, h2]

theorem initCell_partial (st : Store) (lid : Int) (cells : List String) (cid : String)
    (hm : cid ∈ cells) (ht : pyTruthy (cellStatus st lid cid) = true)
    (hp : cellPin st lid cid = none) :
    initCell st lid cells cid = (.error .typeError, st) := by
  obtain ⟨s, hs, hs2⟩ := pyTruthy_some ht
  unfold initCell
  rw [if_pos hm, if_pos ht]
  unfold initCellRead
  rw [hs, hp]

theorem initCell_snd (st : Store) (lid : Int) (cells : List String) (cid : String) :
    (initCell st lid cells cid).2 = st ∨
    (pyTruthy (cellStatus st lid cid) = false ∧ cid ∈ cells ∧
     (initCell st lid cells cid).2 =
       hsetPin (hsetStatus st lid cid CLOSED_CELL) lid cid UNSET_PIN) := by
  by_cases hm : cid ∈ cells
  · by_cases hs : pyTruthy (cellStatus st lid cid) = true
    · left
      simp [initCell, hm, hs, initCellRead_snd]
    · right
      have hs2 : pyTruthy (cellStatus st lid cid) = false := by
        cases h2 : pyTruthy (cellStatus st lid cid)
        · rfl
        · exact absurd h2 hs
      exact ⟨hs2, hm, by simp [initCell, hm, hs2, initCellRead_snd]⟩
  · left
    simp [initCell, hm]

theorem initCell_lockers (st : Store) (lid : Int) (cells : List String) (cid : String) :
    (initCell st lid cells cid).2.lockers = st.lockers := by
  rcases initCell_snd st lid cells cid with h | ⟨_, _, h⟩ <;>
    simp [h, hsetPin_lockers, hsetStatus_lockers]

theorem alookup_initCell_ne (st : Store) (lid : Int) (cells : List String) (cid : String)
    (k : Int × String) (hk : k ≠ (lid, cid)) :
    alookup (initCell st lid cells cid).2.cells k = alookup st.cells k := by
  rcases initCell_snd st lid cells cid with h | ⟨_, _, h⟩
  · rw [h]
  · rw [h, alookup_hsetPin_ne _ _ _ _ _ hk, alookup_hsetStatus_ne _ _ _ _ _ hk]

theorem cellPin_initCell_ne (st : Store) (lid : Int) (cells : List String) (cid : String)
    (l : Int) (c : String) (hk : (l, c) ≠ (lid, cid)) :
    cellPin (initCell st lid cells cid).2 l c = cellPin st l c := by
  rw [cellPin, alookup_initCell_ne st lid cells cid _ hk, cellPin]

theorem cellView_of_falsy (st : Store) (l : Int) (c : String)
    (hs : pyTruthy (cellStatus st l c) = false) :
    cellView st l c = (CLOSED_CELL, some UNSET_PIN) := by
  unfold cellView
  cases halt : alookup st.cells (l, c) with
  | none => simp [halt, pyTruthy]
  | some r =>
    rw [cellStatus, halt] at hs
    simp only [Option.some_bind] at hs
    simp [halt, hs]

theorem cellView_initCell (st : Store) (lid : Int) (cells : List String) (cid : String)
    (l : Int) (c : String) :
    cellView (initCell st lid cells cid).2 l c = cellView st l c := by
  rcases initCell_snd st lid cells cid with h | ⟨hs, _, h⟩
  · rw [h]
  · by_cases hk : (l, c) = (lid, cid)
    · obtain ⟨h1, h2⟩ := Prod.mk.injEq .. ▸ hk
      subst h1; subst h2
      rw [h]
      have h3 : alookup (hsetPin (hsetStatus st l c CLOSED_CELL) l c UNSET_PIN).cells (l, c) =
          some ⟨some CLOSED_CELL, some UNSET_PIN⟩ := by
        rw [alookup_hsetPin_self, alookup_hsetStatus_self]
        rfl
      have h4 : cellView (hsetPin (hsetStatus st l c CLOSED_CELL) l c UNSET_PIN) l c
          = (CLOSED_CELL, some UNSET_PIN) := by
        unfold cellView
        rw [h3]
        simp [pyTruthy, CLOSED_CELL]
      rw [h4, cellView_of_falsy st l c hs]
    · rw [h, cellView, alookup_hsetPin_ne _ _ _ _ _ hk, alookup_hsetStatus_ne _ _ _ _ _ hk,
          cellView]

/-!  Pin-scan lemmas. -/

theorem mem_getAllPins_fst (st : Store) (lid : Int) (skip : String) (cells : List String)
    (p : String) :
    p ∈ (getAllPins st lid skip cells).1 ↔
      ∃ c, c ∈ cells ∧ c ≠ skip ∧ cellPin st lid c = some p ∧ p ≠ "" := by
  induction cells with
  | nil => simp [getAllPins]
  | cons c rest ih =>
    simp only [getAllPins]
    by_cases hc : c = skip
    · rw [if_pos hc, ih]
      constructor
      · rintro ⟨c2, hm, hne, hp2, hp⟩
        exact ⟨c2, List.mem_cons_of_mem _ hm, hne, hp2, hp⟩
      · rintro ⟨c2, hm, hne, hp2, hp⟩
        rcases List.mem_cons.mp hm with rfl | hm2
        · exact absurd hc hne
        · exact ⟨c2, hm2, hne, hp2, hp⟩
    · rw [if_neg hc]
      cases hpin : cellPin st lid c with
      | none =>
        dsimp only
        rw [ih]
        constructor
        · rintro ⟨c2, hm, hne, hp2, hp⟩
          exact ⟨c2, List.mem_cons_of_mem _ hm, hne, hp2, hp⟩
        · rintro ⟨c2, hm, hne, hp2, hp⟩
          rcases List.mem_cons.mp hm with rfl | hm2
          · rw [hpin] at hp2; exact absurd hp2 (by simp)
          · exact ⟨c2, hm2, hne, hp2, hp⟩
      | some q =>
        dsimp only
        by_cases hq : q = ""
        · rw [if_pos hq, ih]
          constructor
          · rintro ⟨c2, hm, hne, hp2, hp⟩
            exact ⟨c2, List.mem_cons_of_mem _ hm, hne, hp2, hp⟩
          · rintro ⟨c2, hm, hne, hp2, hp⟩
            rcases List.mem_cons.mp hm with rfl | hm2
            · rw [hpin] at hp2
              injection hp2 with hh
              rw [hq] at hh
              exact absurd hh.symm hp
            · exact ⟨c2, hm2, hne, hp2, hp⟩
        · rw [if_neg hq]
          simp only [List.mem_cons]
          constructor
          · rintro (rfl | hmem)
            · exact ⟨c, Or.inl rfl, hc, hpin, hq⟩
            · obtain ⟨c2, hm, hne, hp2, hp⟩ := ih.mp hmem
              exact ⟨c2, Or.inr hm, hne, hp2, hp⟩
          · rintro ⟨c2, rfl | hm2, hne, hp2, hp⟩
            · rw [hpin] at hp2
              injection hp2 with hh
              exact Or.inl hh.symm
            · exact Or.inr (ih.mpr ⟨c2, hm2, hne, hp2, hp⟩)

theorem alookup_getAllPins_snd (st : Store) (lid : Int) (skip : String) (cells : List String)
    (p : String) (c : String)
    (h : alookup (getAllPins st lid skip cells).2 p = some c) :
    c ∈ cells ∧ c ≠ skip ∧ cellPin st lid c = some p ∧ p ≠ "" := by
  induction cells with
  | nil => simp [getAllPins, alookup] at h
  | cons c1 rest ih =>
    simp only [getAllPins] at h
    by_cases hc : c1 = skip
    · rw [if_pos hc] at h
      obtain ⟨hm, hne, hp2, hp⟩ := ih h
      exact ⟨List.mem_cons_of_mem _ hm, hne, hp2, hp⟩
    · rw [if_neg hc] at h
      cases hpin : cellPin st lid c1 with
      | none =>
        rw [hpin] at h
        dsimp only at h
        obtain ⟨hm, hne, hp2, hp⟩ := ih h
        exact ⟨List.mem_cons_of_mem _ hm, hne, hp2, hp⟩
      | some q =>
        rw [hpin] at h
        dsimp only at h
        by_cases hq : q = ""
        · rw [if_pos hq] at h
          obtain ⟨hm, hne, hp2, hp⟩ := ih h
          exact ⟨List.mem_cons_of_mem _ hm, hne, hp2, hp⟩
        · rw [if_neg hq] at h
          by_cases hdup : (alookup (getAllPins st lid skip rest).2 q).isSome
          · rw [if_pos hdup] at h
            obtain ⟨hm, hne, hp2, hp⟩ := ih h
            exact ⟨List.mem_cons_of_mem _ hm, hne, hp2, hp⟩
          · rw [if_neg hdup] at h
            rw [alookup] at h
            by_cases hqp : q = p
            · rw [if_pos hqp] at h
              injection h with hh
              subst hh
              subst hqp
              exact ⟨List.mem_cons_self .., hc, hpin, hq⟩
            · rw [if_neg hqp] at h
              obtain ⟨hm, hne, hp2, hp⟩ := ih h
              exact ⟨List.mem_cons_of_mem _ hm, hne, hp2, hp⟩

theorem alookup_getAllPins_isSome (st : Store) (lid : Int) (skip : String)
    (cells : List String) (p : String)
    (h : p ∈ (getAllPins st lid skip cells).1) :
    (alookup (getAllPins st lid skip cells).2 p).isSome = true := by
  induction cells with
  | nil => simp [getAllPins] at h
  | cons c1 rest ih =>
    simp only [getAllPins] at h ⊢
    by_cases hc : c1 = skip
    · rw [if_pos hc] at h ⊢
      exact ih h
    · rw [if_neg hc] at h ⊢
      cases hpin : cellPin st lid c1 with
      | none =>
        rw [hpin] at h
        dsimp only at h ⊢
        exact ih h
      | some q =>
        rw [hpin] at h
        dsimp only at h ⊢
        by_cases hq : q = ""
        · rw [if_pos hq] at h ⊢
          exact ih h
        · rw [if_neg hq] at h ⊢
          rcases List.mem_cons.mp h with rfl | hmem
          · by_cases hdup : (alookup (getAllPins st lid skip rest).2 p).isSome
            · rw [if_pos hdup]
              exact hdup
            · rw [if_neg hdup, alookup, if_pos rfl]
              rfl
          · have hsome := ih hmem
            by_cases hdup : (alookup (getAllPins st lid skip rest).2 q).isSome
            · rw [if_pos hdup]
              exact hsome
            · rw [if_neg hdup, alookup]
              by_cases hqp : q = p
              · rw [if_pos hqp]
                rfl
              · rw [if_neg hqp]
                exact hsome

/-!  Pin-distinctness preservation framework. -/

/-- A store change that keeps every pin or overwrites it with a
sentinel (and leaves the registry alone). -/
def PinsPreserved (st st2 : Store) : Prop :=
  st2.lockers = st.lockers ∧
  ∀ l c, cellPin st2 l c = cellPin st l c ∨
    ∃ q, cellPin st2 l c = some q ∧ isSentinel q = true

theorem pinsPreserved_refl (st : Store) : PinsPreserved st st :=
  ⟨rfl, fun _ _ => Or.inl rfl⟩

theorem pinsPreserved_trans (st1 st2 st3 : Store)
    (h1 : PinsPreserved st1 st2) (h2 : PinsPreserved st2 st3) : PinsPreserved st1 st3 := by
  obtain ⟨hl1, hp1⟩ := h1
  obtain ⟨hl2, hp2⟩ := h2
  refine ⟨hl2.trans hl1, fun l c => ?_⟩
  rcases hp2 l c with h | ⟨q, hq, hqs⟩
  · rcases hp1 l c with h2 | ⟨q, hq, hqs⟩
    · exact Or.inl (h.trans h2)
    · exact Or.inr ⟨q, h.trans hq, hqs⟩
  · exact Or.inr ⟨q, hq, hqs⟩

theorem pinsPreserved_hsetStatus (st : Store) (l : Int) (c : String) (v : String) :
    PinsPreserved st (hsetStatus st l c v) :=
  ⟨rfl, fun l2 c2 => Or.inl (cellPin_hsetStatus st l c v l2 c2)⟩

theorem pinsPreserved_hsetPin_sentinel (st : Store) (l : Int) (c : String) (v : String)
    (hv : isSentinel v = true) : PinsPreserved st (hsetPin st l c v) := by
  refine ⟨rfl, fun l2 c2 => ?_⟩
  by_cases hk : (l2, c2) = (l, c)
  · obtain ⟨h1, h2⟩ := Prod.mk.injEq .. ▸ hk
    subst h1; subst h2
    exact Or.inr ⟨v, cellPin_hsetPin_self .., hv⟩
  · exact Or.inl (cellPin_hsetPin_ne st l c v l2 c2 hk)

theorem pinsPreserved_initCell (st : Store) (lid : Int) (cells : List String) (cid : String) :
    PinsPreserved st (initCell st lid cells cid).2 := by
  rcases initCell_snd st lid cells cid with h | ⟨_, _, h⟩
  · rw [h]; exact pinsPreserved_refl st
  · rw [h]
    exact pinsPreserved_trans _ _ _ (pinsPreserved_hsetStatus ..)
      (pinsPreserved_hsetPin_sentinel _ _ _ _ (by decide))

theorem pinsPreserved_statusWritePhase (st : Store) (lid : Int) (cid : String)
    (s ns : String) : PinsPreserved st (statusWritePhase st lid cid s ns) := by
  unfold statusWritePhase
  have hbase : PinsPreserved st (if (s != ns) = true then hsetStatus st lid cid ns else st) := by
    by_cases hb : (s != ns) = true
    · rw [if_pos hb]; exact pinsPreserved_hsetStatus ..
    · rw [if_neg hb]; exact pinsPreserved_refl st
  by_cases hcl : ns = CLOSED_CELL
  · rw [if_pos hcl]
    exact pinsPreserved_trans _ _ _ hbase (pinsPreserved_hsetPin_sentinel _ _ _ _ (by decide))
  · rw [if_neg hcl]
    exact hbase

theorem pinsDistinct_of_preserved (st st2 : Store) (lid : Int)
    (hp : PinsPreserved st st2) (h : pinsDistinct st lid) : pinsDistinct st2 lid := by
  obtain ⟨hl, hpin⟩ := hp
  intro c1 c2 h1 h2 hne p1 p2 hp1 hp2 hs1 hs2
  rw [lockerCellList_congr st st2 hl lid] at h1 h2
  rcases hpin lid c1 with e1 | ⟨q1, hq1, hqs1⟩
  · rcases hpin lid c2 with e2 | ⟨q2, hq2, hqs2⟩
    · exact h c1 c2 h1 h2 hne p1 p2 (e1.symm.trans hp1) (e2.symm.trans hp2) hs1 hs2
    · rw [hp2] at hq2
      injection hq2 with hh
      rw [← hh] at hqs2
      rw [hs2] at hqs2
      exact absurd hqs2 (by decide)
  · rw [hp1] at hq1
    injection hq1 with hh
    rw [← hh] at hqs1
    rw [hs1] at hqs1
    exact absurd hqs1 (by decide)

/-!  Per-operation preservation of pin distinctness. -/

theorem pinsPreserved_setCellStatus (st : Store) (lid : Int) (cid : String) (ns : String) :
    PinsPreserved st (setCellStatus st lid cid ns).2 := by
  unfold setCellStatus
  cases hil : initLocker st lid with
  | error e => exact pinsPreserved_refl st
  | ok cells =>
    rcases hic : initCell st lid cells cid with ⟨res, st1⟩
    dsimp only
    rw [hic]
    have hpre : PinsPreserved st st1 := by
      have h2 := pinsPreserved_initCell st lid cells cid
      rw [hic] at h2
      exact h2
    cases res with
    | error e => exact hpre
    | ok sp =>
      obtain ⟨s, p⟩ := sp
      exact pinsPreserved_trans _ _ _ hpre (pinsPreserved_statusWritePhase ..)

theorem pinsPreserved_getCell (st : Store) (lid : Int) (cid : String) :
    PinsPreserved st (getCell st lid cid).2 := by
  unfold getCell
  cases hil : initLocker st lid with
  | error e => exact pinsPreserved_refl st
  | ok cells => exact pinsPreserved_initCell st lid cells cid

theorem pinsPreserved_enterPin (st : Store) (lid : Int) (pin : String) :
    PinsPreserved st (enterPin st lid pin).2 := by
  unfold enterPin
  cases hv : validatePin pin with
  | error e => exact pinsPreserved_refl st
  | ok u =>
    cases hil : initLocker st lid with
    | error e => exact pinsPreserved_refl st
    | ok cells =>
      dsimp only
      by_cases hmem : pin ∈ (getAllPins st lid "" cells).1
      · rw [if_pos hmem]
        cases halp : alookup (getAllPins st lid "" cells).2 pin with
        | some c => exact pinsPreserved_hsetStatus ..
        | none => exact pinsPreserved_refl st
      · rw [if_neg hmem]
        exact pinsPreserved_refl st

theorem pinsDistinct_setCellPin (st : Store) (lidOp : Int) (cid : String) (np : String)
    (lid : Int) (h : pinsDistinct st lid) :
    pinsDistinct (setCellPin st lidOp cid np).2 lid := by
  unfold setCellPin
  cases hv : validatePin np with
  | error e => exact h
  | ok u =>
    cases hil : initLocker st lidOp with
    | error e => exact h
    | ok cells =>
      rcases hic : initCell st lidOp cells cid with ⟨res, st1⟩
      dsimp only
      rw [hic]
      have hpre : PinsPreserved st st1 := by
        have h2 := pinsPreserved_initCell st lidOp cells cid
        rw [hic] at h2
        exact h2
      have hd1 : pinsDistinct st1 lid := pinsDistinct_of_preserved st st1 lid hpre h
      cases res with
      | error e => exact hd1
      | ok sp =>
        obtain ⟨s, p0⟩ := sp
        dsimp only
        by_cases hmem : np ∈ (getAllPins st1 lidOp cid cells).1
        · rw [if_pos hmem]
          exact hd1
        · rw [if_neg hmem]
          have hmatch : pyMatchSixDigits np = true := validatePin_eq_ok hv
          have hnpe : np ≠ "" := pyMatch_ne_empty hmatch
          have hlock : (hsetPin st1 lidOp cid np).lockers = st1.lockers := rfl
          by_cases hll : lid = lidOp
          · subst hll
            have hcl : lockerCellList st1 lid = cells := by
              have e1 : lockerCellList st lid = cells := initLocker_ok_cellList st lid cells hil
              rw [← e1]
              exact lockerCellList_congr st st1 hpre.1 lid
            intro c1 c2 h1 h2 hne p1 p2 hp1 hp2 hs1 hs2
            rw [lockerCellList_congr st1 _ hlock lid, hcl] at h1 h2
            by_cases hc1 : c1 = cid
            · subst hc1
              rw [cellPin_hsetPin_self] at hp1
              injection hp1 with hh1
              have hk2 : (lid, c2) ≠ (lid, c1) := by
                intro hk
                injection hk with ha hb
                exact hne hb.symm
              rw [cellPin_hsetPin_ne st1 lid c1 np lid c2 hk2] at hp2
              intro hcon
              rw [← hcon, ← hh1] at hp2
              by_cases hp2e : p1 = ""
              · rw [hp2e] at hh1
                exact hnpe hh1
              · rw [← hh1] at hp2e
                exact hmem (by
                  rw [mem_getAllPins_fst]
                  exact ⟨c2, h2, Ne.symm hne, hp2, hp2e⟩)
            · by_cases hc2 : c2 = cid
              · subst hc2
                rw [cellPin_hsetPin_self] at hp2
                injection hp2 with hh2
                have hk1 : (lid, c1) ≠ (lid, c2) := by
                  intro hk
                  injection hk with ha hb
                  exact hne hb
                rw [cellPin_hsetPin_ne st1 lid c2 np lid c1 hk1] at hp1
                intro hcon
                rw [hcon, ← hh2] at hp1
                by_cases hp1e : p2 = ""
                · rw [hp1e] at hh2
                  exact hnpe hh2
                · rw [← hh2] at hp1e
                  exact hmem (by
                    rw [mem_getAllPins_fst]
                    exact ⟨c1, h1, hc1, hp1, hp1e⟩)
              · have hk1 : (lid, c1) ≠ (lid, cid) := by
                  intro hk
                  injection hk with ha hb
                  exact hc1 hb
                have hk2 : (lid, c2) ≠ (lid, cid) := by
                  intro hk
                  injection hk with ha hb
                  exact hc2 hb
                rw [cellPin_hsetPin_ne st1 lid cid np lid c1 hk1] at hp1
                rw [cellPin_hsetPin_ne st1 lid cid np lid c2 hk2] at hp2
                rw [← hcl] at h1 h2
                exact hd1 c1 c2 h1 h2 hne p1 p2 hp1 hp2 hs1 hs2
          · intro c1 c2 h1 h2 hne p1 p2 hp1 hp2 hs1 hs2
            have hk1 : (lid, c1) ≠ (lidOp, cid) := by
              intro hk
              injection hk with ha hb
              exact hll ha
            have hk2 : (lid, c2) ≠ (lidOp, cid) := by
              intro hk
              injection hk with ha hb
              exact hll ha
            rw [cellPin_hsetPin_ne st1 lidOp cid np lid c1 hk1] at hp1
            rw [cellPin_hsetPin_ne st1 lidOp cid np lid c2 hk2] at hp2
            rw [lockerCellList_congr st1 _ hlock lid] at h1 h2
            exact hd1 c1 c2 h1 h2 hne p1 p2 hp1 hp2 hs1 hs2

theorem pinsDistinct_runOp (st : Store) (op : Op) (lid : Int) (h : pinsDistinct st lid) :
    pinsDistinct (runOp st op) lid := by
  cases op with
  | setPinOp l c p => exact pinsDistinct_setCellPin st l c p lid h
  | enterOp l p => exact pinsDistinct_of_preserved _ _ _ (pinsPreserved_enterPin st l p) h
  | openOp l c =>
    exact pinsDistinct_of_preserved _ _ _ (pinsPreserved_setCellStatus st l c OPEN_CELL) h
  | closeOp l c =>
    exact pinsDistinct_of_preserved _ _ _ (pinsPreserved_setCellStatus st l c CLOSED_CELL) h
  | getCellOp l c => exact pinsDistinct_of_preserved _ _ _ (pinsPreserved_getCell st l c) h

theorem pinsDistinct_runOps (st : Store) (ops : List Op) (lid : Int)
    (h : pinsDistinct st lid) : pinsDistinct (runOps st ops) lid := by
  induction ops generalizing st with
  | nil => exact h
  | cons op rest ih => exact ih (runOp st op) (pinsDistinct_runOp st op lid h)

/-!  Write-locality: each request writes only cell hashes of its own
locker, at cell ids belonging to that locker's registry cell set. -/

theorem statusWritePhase_lockers (st : Store) (lid : Int) (cid : String) (s ns : String) :
    (statusWritePhase st lid cid s ns).lockers = st.lockers := by
  unfold statusWritePhase
  by_cases hcl : ns = CLOSED_CELL <;> by_cases hb : (s != ns) = true <;>
    simp [hcl, hb, hsetPin_lockers, hsetStatus_lockers] <;>
    split <;> simp [hsetStatus_lockers]

theorem alookup_statusWritePhase_ne (st : Store) (lid : Int) (cid : String) (s ns : String)
    (k : Int × String) (hk : k ≠ (lid, cid)) :
    alookup (statusWritePhase st lid cid s ns).cells k = alookup st.cells k := by
  unfold statusWritePhase
  by_cases hcl : ns = CLOSED_CELL
  · rw [if_pos hcl, alookup_hsetPin_ne _ _ _ _ _ hk]
    by_cases hb : (s != ns) = true
    · rw [if_pos hb, alookup_hsetStatus_ne _ _ _ _ _ hk]
    · rw [if_neg hb]
  · rw [if_neg hcl]
    by_cases hb : (s != ns) = true
    · rw [if_pos hb, alookup_hsetStatus_ne _ _ _ _ _ hk]
    · rw [if_neg hb]

theorem setCellStatus_lockers (st : Store) (lid : Int) (cid : String) (ns : String) :
    (setCellStatus st lid cid ns).2.lockers = st.lockers := by
  unfold setCellStatus
  cases hil : initLocker st lid with
  | error e => rfl
  | ok cells =>
    rcases hic : initCell st lid cells cid with ⟨res, st1⟩
    dsimp only
    rw [hic]
    have h1 : st1.lockers = st.lockers := by
      have h2 := initCell_lockers st lid cells cid
      rw [hic] at h2
      exact h2
    cases res with
    | error e => exact h1
    | ok sp =>
      obtain ⟨s, p⟩ := sp
      exact (statusWritePhase_lockers ..).trans h1

theorem alookup_setCellStatus_other (st : Store) (lid : Int) (cid : String) (ns : String)
    (k : Int × String) (hk : k.1 ≠ lid ∨ k.2 ∉ lockerCellList st lid) :
    alookup (setCellStatus st lid cid ns).2.cells k = alookup st.cells k := by
  unfold setCellStatus
  cases hil : initLocker st lid with
  | error e => rfl
  | ok cells =>
    have hcl : lockerCellList st lid = cells := initLocker_ok_cellList st lid cells hil
    by_cases hm : cid ∈ cells
    · have hknot : k ≠ (lid, cid) := by
        intro hke
        rcases hk with hk2 | hk2
        · exact hk2 (by rw [hke])
        · rw [hcl] at hk2
          exact hk2 (by rw [hke]; exact hm)
      rcases hic : initCell st lid cells cid with ⟨res, st1⟩
      dsimp only
      rw [hic]
      have h1 : alookup st1.cells k = alookup st.cells k := by
        have h2 := alookup_initCell_ne st lid cells cid k hknot
        rw [hic] at h2
        exact h2
      cases res with
      | error e => exact h1
      | ok sp =>
        obtain ⟨s, p⟩ := sp
        rw [alookup_statusWritePhase_ne st1 lid cid s ns k hknot]
        exact h1
    · dsimp only
      rw [initCell_not_mem st lid cells cid hm]

theorem setCellPin_lockers (st : Store) (lid : Int) (cid : String) (np : String) :
    (setCellPin st lid cid np).2.lockers = st.lockers := by
  unfold setCellPin
  cases hv : validatePin np with
  | error e => rfl
  | ok u =>
    cases hil : initLocker st lid with
    | error e => rfl
    | ok cells =>
      rcases hic : initCell st lid cells cid with ⟨res, st1⟩
      dsimp only
      rw [hic]
      have h1 : st1.lockers = st.lockers := by
        have h2 := initCell_lockers st lid cells cid
        rw [hic] at h2
        exact h2
      cases res with
      | error e => exact h1
      | ok sp =>
        obtain ⟨s, p⟩ := sp
        dsimp only
        by_cases hmem : np ∈ (getAllPins st1 lid cid cells).1
        · rw [if_pos hmem]
          exact h1
        · rw [if_neg hmem]
          exact h1

theorem alookup_setCellPin_other (st : Store) (lid : Int) (cid : String) (np : String)
    (k : Int × String) (hk : k.1 ≠ lid ∨ k.2 ∉ lockerCellList st lid) :
    alookup (setCellPin st lid cid np).2.cells k = alookup st.cells k := by
  unfold setCellPin
  cases hv : validatePin np with
  | error e => rfl
  | ok u =>
    cases hil : initLocker st lid with
    | error e => rfl
    | ok cells =>
      have hcl : lockerCellList st lid = cells := initLocker_ok_cellList st lid cells hil
      by_cases hm : cid ∈ cells
      · have hknot : k ≠ (lid, cid) := by
          intro hke
          rcases hk with hk2 | hk2
          · exact hk2 (by rw [hke])
          · rw [hcl] at hk2
            exact hk2 (by rw [hke]; exact hm)
        rcases hic : initCell st lid cells cid with ⟨res, st1⟩
        dsimp only
        rw [hic]
        have h1 : alookup st1.cells k = alookup st.cells k := by
          have h2 := alookup_initCell_ne st lid cells cid k hknot
          rw [hic] at h2
          exact h2
        cases res with
        | error e => exact h1
        | ok sp =>
          obtain ⟨s, p⟩ := sp
          dsimp only
          by_cases hmem : np ∈ (getAllPins st1 lid cid cells).1
          · rw [if_pos hmem]
            exact h1
          · rw [if_neg hmem]
            rw [alookup_hsetPin_ne _ _ _ _ _ hknot]
            exact h1
      · dsimp only
        rw [initCell_not_mem st lid cells cid hm]

theorem getCell_lockers (st : Store) (lid : Int) (cid : String) :
    (getCell st lid cid).2.lockers = st.lockers := by
  unfold getCell
  cases hil : initLocker st lid with
  | error e => rfl
  | ok cells => exact initCell_lockers st lid cells cid

theorem alookup_getCell_other (st : Store) (lid : Int) (cid : String)
    (k : Int × String) (hk : k.1 ≠ lid ∨ k.2 ∉ lockerCellList st lid) :
    alookup (getCell st lid cid).2.cells k = alookup st.cells k := by
  unfold getCell
  cases hil : initLocker st lid with
  | error e => rfl
  | ok cells =>
    dsimp only
    have hcl : lockerCellList st lid = cells := initLocker_ok_cellList st lid cells hil
    by_cases hm : cid ∈ cells
    · have hknot : k ≠ (lid, cid) := by
        intro hke
        rcases hk with hk2 | hk2
        · exact hk2 (by rw [hke])
        · rw [hcl] at hk2
          exact hk2 (by rw [hke]; exact hm)
      exact alookup_initCell_ne st lid cells cid k hknot
    · rw [initCell_not_mem st lid cells cid hm]

theorem enterPin_lockers (st : Store) (lid : Int) (pin : String) :
    (enterPin st lid pin).2.lockers = st.lockers := by
  unfold enterPin
  cases hv : validatePin pin with
  | error e => rfl
  | ok u =>
    cases hil : initLocker st lid with
    | error e => rfl
    | ok cells =>
      dsimp only
      by_cases hmem : pin ∈ (getAllPins st lid "" cells).1
      · rw [if_pos hmem]
        cases halp : alookup (getAllPins st lid "" cells).2 pin with
        | some c => rfl
        | none => rfl
      · rw [if_neg hmem]

theorem alookup_enterPin_other (st : Store) (lid : Int) (pin : String)
    (k : Int × String) (hk : k.1 ≠ lid ∨ k.2 ∉ lockerCellList st lid) :
    alookup (enterPin st lid pin).2.cells k = alookup st.cells k := by
  unfold enterPin
  cases hv : validatePin pin with
  | error e => rfl
  | ok u =>
    cases hil : initLocker st lid with
    | error e => rfl
    | ok cells =>
      have hcl : lockerCellList st lid = cells := initLocker_ok_cellList st lid cells hil
      dsimp only
      by_cases hmem : pin ∈ (getAllPins st lid "" cells).1
      · rw [if_pos hmem]
        cases halp : alookup (getAllPins st lid "" cells).2 pin with
        | some c =>
          have hsound := alookup_getAllPins_snd st lid "" cells pin c halp
          have hknot : k ≠ (lid, c) := by
            intro hke
            rcases hk with hk2 | hk2
            · exact hk2 (by rw [hke])
            · rw [hcl] at hk2
              exact hk2 (by rw [hke]; exact hsound.1)
          exact alookup_hsetStatus_ne _ _ _ _ _ hknot
        | none => rfl
      · rw [if_neg hmem]

theorem runOp_lockers (st : Store) (op : Op) : (runOp st op).lockers = st.lockers := by
  cases op with
  | setPinOp l c p => exact setCellPin_lockers st l c p
  | enterOp l p => exact enterPin_lockers st l p
  | openOp l c => exact setCellStatus_lockers st l c OPEN_CELL
  | closeOp l c => exact setCellStatus_lockers st l c CLOSED_CELL
  | getCellOp l c => exact getCell_lockers st l c

theorem alookup_runOp_notMem (st : Store) (op : Op) (lid : Int) (cid : String)
    (h : cid ∉ lockerCellList st lid) :
    alookup (runOp st op).cells (lid, cid) = alookup st.cells (lid, cid) := by
  have hk : ∀ l : Int, (lid, cid).1 ≠ l ∨ (lid, cid).2 ∉ lockerCellList st l := by
    intro l
    by_cases hl : lid = l
    · subst hl
      right
      exact h
    · left
      exact hl
  cases op with
  | setPinOp l c p => exact alookup_setCellPin_other st l c p (lid, cid) (hk l)
  | enterOp l p => exact alookup_enterPin_other st l p (lid, cid) (hk l)
  | openOp l c => exact alookup_setCellStatus_other st l c OPEN_CELL (lid, cid) (hk l)
  | closeOp l c => exact alookup_setCellStatus_other st l c CLOSED_CELL (lid, cid) (hk l)
  | getCellOp l c => exact alookup_getCell_other st l c (lid, cid) (hk l)

theorem alookup_runOps_notMem (st : Store) (ops : List Op) (lid : Int) (cid : String)
    (h : cid ∉ lockerCellList st lid) :
    alookup (runOps st ops).cells (lid, cid) = alookup st.cells (lid, cid) := by
  induction ops generalizing st with
  | nil => rfl
  | cons op rest ih =>
    have h2 : cid ∉ lockerCellList (runOp st op) lid := by
      rw [lockerCellList_congr st (runOp st op) (runOp_lockers st op) lid]
      exact h
    show alookup (runOps (runOp st op) rest).cells (lid, cid) = alookup st.cells (lid, cid)
    rw [ih (runOp st op) h2]
    exact alookup_runOp_notMem st op lid cid h

/-!  View helpers and evaluation helpers for the claim theorems. -/

theorem cellView_of_truthy (st : Store) (l : Int) (c : String) (s : String)
    (hs : cellStatus st l c = some s) (hsne : s ≠ "") :
    cellView st l c = (s, cellPin st l c) := by
  unfold cellView
  cases halt : alookup st.cells (l, c) with
  | none =>
    rw [cellStatus, halt] at hs
    simp at hs
  | some r =>
    rw [cellStatus, halt] at hs
    simp only [Option.some_bind] at hs
    rw [cellPin, halt]
    simp [hs, pyTruthy, hsne]

theorem cellView_fst_hsetPin (st : Store) (l : Int) (c : String) (v : String) :
    (cellView (hsetPin st l c v) l c).1 = (cellView st l c).1 := by
  unfold cellView
  rw [alookup_hsetPin_self]
  cases halt : alookup st.cells (l, c) with
  | none => simp [pyTruthy]
  | some r =>
    by_cases ht : pyTruthy r.status = true
    · simp [ht]
    · simp only [Bool.not_eq_true] at ht
      simp [ht]

theorem cellPin_statusWritePhase_closed (st : Store) (l : Int) (c : String) (s : String) :
    cellPin (statusWritePhase st l c s CLOSED_CELL) l c = some MASKED_PIN := by
  unfold statusWritePhase
  rw [if_pos rfl, cellPin_hsetPin_self]

theorem enterPin_invalid (st : Store) (lid : Int) (p : String)
    (h : pyMatchSixDigits p = false) : enterPin st lid p = (.error .invalidPin, st) := by
  unfold enterPin validatePin
  rw [h, if_neg (by decide : ¬(false = true))]

theorem getCell_eval (st : Store) (lid : Int) (cid : String) (cells : List String)
    (hl : initLocker st lid = .ok cells) :
    getCell st lid cid = initCell st lid cells cid := by
  unfold getCell
  rw [hl]

theorem initLocker_cond (o : Option String) (lid : Int) :
    (!pyTruthy o || o.getD "" != toString lid) = true ↔ o ≠ some (toString lid) := by
  cases o with
  | none => simp [pyTruthy]
  | some s =>
    simp only [pyTruthy, Option.getD_some, ne_eq, Option.some.injEq,
      Bool.or_eq_true, Bool.not_eq_true', bne_eq_false_iff_eq, bne_iff_ne]
    constructor
    · rintro (h | h)
      · subst h
        intro he
        exact toString_int_ne_empty lid he.symm
      · exact h
    · intro h
      by_cases hs : s = ""
      · exact Or.inl hs
      · exact Or.inr h

theorem initLocker_notFound_iff (st : Store) (lid : Int) :
    initLocker st lid = .error .lockerNotFound ↔
      (alookup st.lockers lid).bind (·.lockerIdField) ≠ some (toString lid) := by
  unfold initLocker
  by_cases hc : ((alookup st.lockers lid).bind (·.lockerIdField)) ≠ some (toString lid)
  · rw [if_pos ((initLocker_cond _ lid).mpr hc)]
    simp [hc]
  · rw [if_neg (fun hb => hc ((initLocker_cond _ lid).mp hb))]
    constructor
    · intro h
      split at h <;> simp at h
    · intro h
      exact absurd h hc

/-- The invariant holds vacuously in a store with no cell records. -/
theorem pinsDistinct_of_no_cells (st : Store) (lid : Int) (h : st.cells = []) :
    pinsDistinct st lid := by
  intro c1 c2 h1 h2 hne p1 p2 hp1 hp2 hs1 hs2
  rw [cellPin, h] at hp1
  simp [alookup] at hp1

theorem pinsDistinct_scenA : pinsDistinct scenA 1234 := by
  have h := pinsDistinct_runOps initialStore
      [Op.setPinOp 1234 "C-001" "111111", Op.setPinOp 1234 "C-002" "111111"] 1234
      (pinsDistinct_of_no_cells initialStore 1234 rfl)
  exact h

/-!  Claim theorems. -/

/-- C1: for every locker and every sequence of public operations
(`setCellPin`, `enterPin`, open, close, `getCell`) executed sequentially
from an initial state in which the locker's non-sentinel pins are
pairwise distinct, the non-sentinel pins stored among that locker's
cells remain pairwise distinct; applied to every prefix of a sequence,
this gives the invariant after each operation. -/
theorem pinUniqueness_invariant (st : Store) (lid : Int) (ops : List Op)
    (h : pinsDistinct st lid) : pinsDistinct (runOps st ops) lid :=
  pinsDistinct_runOps st ops lid h

theorem pinUniqueness_invariant_witness :
    pinsDistinct (runOps initialStore
      [Op.setPinOp 1234 "C-001" "111111", Op.setPinOp 1234 "C-002" "111111",
       Op.enterOp 1234 "111111", Op.closeOp 1234 "C-001",
       Op.getCellOp 1234 "C-002"]) 1234 :=
  pinUniqueness_invariant initialStore 1234 _
    (pinsDistinct_of_no_cells initialStore 1234 rfl)

/-- C7: locker resolution fails with LockerNotFound exactly when no
locker record exists for the id or the stored `lockerId` field does not
equal the decimal rendering of the requested id (an absent or empty
field never equals it); every public operation resolves the locker
first among its store interactions (`validatePin`, which precedes it in
the pin operations, is pure) and propagates the failure.  Scenario D is
the witness. -/
theorem lockerNotFound_spec (st : Store) (lid : Int) (cid : String) (pin ns : String) :
    (initLocker st lid = .error .lockerNotFound ↔
      (alookup st.lockers lid = none ∨
       (alookup st.lockers lid).bind (·.lockerIdField) ≠ some (toString lid)))
    ∧ (initLocker st lid = .error .lockerNotFound →
        getCell st lid cid = (.error .lockerNotFound, st)
        ∧ setCellStatus st lid cid ns = (.error .lockerNotFound, st)
        ∧ (∀ u : Unit, validatePin pin = .ok u →
            setCellPin st lid cid pin = (.error .lockerNotFound, st))
        ∧ (∀ u : Unit, validatePin pin = .ok u →
            enterPin st lid pin = (.error .lockerNotFound, st))) := by
  constructor
  · rw [initLocker_notFound_iff st lid]
    constructor
    · exact Or.inr
    · rintro (h | h)
      · rw [h]
        simp
      · exact h
  · intro hnf
    refine ⟨?_, ?_, ?_, ?_⟩
    · unfold getCell
      rw [hnf]
    · unfold setCellStatus
      rw [hnf]
    · intro u hv
      unfold setCellPin
      rw [hv, hnf]
    · intro u hv
      unfold enterPin
      rw [hv, hnf]

theorem lockerNotFound_spec_witness :
    getCell initialStore 9999 "C-001" = (.error .lockerNotFound, initialStore) :=
  ((lockerNotFound_spec initialStore 9999 "C-001" "111111" OPEN_CELL).2 (by decide)).1

/-- C8: for a resolved locker and a cellId outside its cell set, every
cell-touching operation fails with CellNotFound leaving the store
exactly unchanged, and no sequence of public operations ever creates or
modifies a state record under that (lockerId, cellId) key.  Scenario E
is the witness. -/
theorem cellNotFound_spec (st : Store) (lid : Int) (cid : String) (cells : List String)
    (ns pin : String) (ops : List Op)
    (hl : initLocker st lid = .ok cells) (hm : cid ∉ cells) :
    getCell st lid cid = (.error .cellNotFound, st)
    ∧ setCellStatus st lid cid ns = (.error .cellNotFound, st)
    ∧ (∀ u : Unit, validatePin pin = .ok u →
        setCellPin st lid cid pin = (.error .cellNotFound, st))
    ∧ alookup (runOps st ops).cells (lid, cid) = alookup st.cells (lid, cid) := by
  have hcl : lockerCellList st lid = cells := initLocker_ok_cellList st lid cells hl
  refine ⟨?_, ?_, ?_, ?_⟩
  · unfold getCell
    rw [hl]
    dsimp only
    exact initCell_not_mem st lid cells cid hm
  · unfold setCellStatus
    rw [hl]
    dsimp only
    rw [initCell_not_mem st lid cells cid hm]
  · intro u hv
    unfold setCellPin
    rw [hv, hl]
    dsimp only
    rw [initCell_not_mem st lid cells cid hm]
  · refine alookup_runOps_notMem st ops lid cid ?_
    rw [hcl]
    exact hm

theorem cellNotFound_spec_witness :
    getCell initialStore 1234 "C-999" = (.error .cellNotFound, initialStore)
    ∧ alookup (runOps initialStore [Op.openOp 1234 "C-001"]).cells (1234, "C-999")
        = alookup initialStore.cells (1234, "C-999") := by
  have h := cellNotFound_spec initialStore 1234 "C-999" ["C-001", "C-002"] OPEN_CELL
      "111111" [Op.openOp 1234 "C-001"] (by decide) (by decide)
  exact ⟨h.1, h.2.2.2⟩

/-- C9: on a member cell with no state record, the first `getOrInit`
(the getCell path) appends exactly one record, initialized to
(closed, unset sentinel), and returns that pair; calling it again on
the resulting store returns the identical pair and the identical store,
creating and changing nothing. -/
theorem getOrInit_idempotent (st : Store) (lid : Int) (cid : String) (cells : List String)
    (hl : initLocker st lid = .ok cells) (hm : cid ∈ cells)
    (h0 : alookup st.cells (lid, cid) = none) :
    getCell st lid cid =
      (.ok (CLOSED_CELL, UNSET_PIN),
       { st with
         cells := st.cells ++ [((lid, cid), ⟨some CLOSED_CELL, some UNSET_PIN⟩)] })
    ∧ getCell (getCell st lid cid).2 lid cid
        = (.ok (CLOSED_CELL, UNSET_PIN), (getCell st lid cid).2) := by
  have hfalsy : pyTruthy (cellStatus st lid cid) = false := by
    rw [cellStatus, h0]
    rfl
  have heval : getCell st lid cid =
      (.ok (CLOSED_CELL, UNSET_PIN),
       hsetPin (hsetStatus st lid cid CLOSED_CELL) lid cid UNSET_PIN) := by
    rw [getCell_eval st lid cid cells hl]
    exact initCell_fresh st lid cells cid hm hfalsy
  have hstep1 : (hsetStatus st lid cid CLOSED_CELL).cells
      = aset st.cells (lid, cid) ⟨some CLOSED_CELL, none⟩ :=
    hsetStatus_cells_none st lid cid CLOSED_CELL h0
  have hr1 : alookup (hsetStatus st lid cid CLOSED_CELL).cells (lid, cid)
      = some ⟨some CLOSED_CELL, none⟩ := by
    rw [hstep1]
    exact alookup_aset_self ..
  have hcellsEq : (hsetPin (hsetStatus st lid cid CLOSED_CELL) lid cid UNSET_PIN).cells
      = st.cells ++ [((lid, cid), ⟨some CLOSED_CELL, some UNSET_PIN⟩)] := by
    rw [hsetPin_cells_some _ _ _ _ ⟨some CLOSED_CELL, none⟩ hr1, hstep1, aset_aset,
        aset_of_alookup_none st.cells (lid, cid) _ h0]
  have hstoreEq : hsetPin (hsetStatus st lid cid CLOSED_CELL) lid cid UNSET_PIN =
      { st with
        cells := st.cells ++ [((lid, cid), ⟨some CLOSED_CELL, some UNSET_PIN⟩)] } := by
    calc hsetPin (hsetStatus st lid cid CLOSED_CELL) lid cid UNSET_PIN
        = { lockers := (hsetPin (hsetStatus st lid cid CLOSED_CELL) lid cid UNSET_PIN).lockers,
            cells := (hsetPin (hsetStatus st lid cid CLOSED_CELL) lid cid UNSET_PIN).cells } :=
          rfl
      _ = { st with
            cells := st.cells ++ [((lid, cid), ⟨some CLOSED_CELL, some UNSET_PIN⟩)] } := by
          rw [hcellsEq]
          rfl
  constructor
  · rw [heval, hstoreEq]
  · have hst2 : cellStatus (getCell st lid cid).2 lid cid = some CLOSED_CELL := by
      rw [heval, cellStatus_hsetPin, cellStatus_hsetStatus_self]
    have hpn2 : cellPin (getCell st lid cid).2 lid cid = some UNSET_PIN := by
      rw [heval]
      exact cellPin_hsetPin_self ..
    have hil2 : initLocker (getCell st lid cid).2 lid = .ok cells := by
      rw [initLocker_congr st (getCell st lid cid).2 (getCell_lockers st lid cid) lid]
      exact hl
    rw [getCell_eval (getCell st lid cid).2 lid cid cells hil2]
    exact initCell_present (getCell st lid cid).2 lid cells cid CLOSED_CELL UNSET_PIN hm
      hst2 (by decide) hpn2

theorem getOrInit_idempotent_witness :
    getCell initialStore 1234 "C-001" =
      (.ok (CLOSED_CELL, UNSET_PIN),
       { initialStore with
         cells := initialStore.cells ++
           [((1234, "C-001"), ⟨some CLOSED_CELL, some UNSET_PIN⟩)] })
    ∧ getCell (getCell initialStore 1234 "C-001").2 1234 "C-001"
        = (.ok (CLOSED_CELL, UNSET_PIN), (getCell initialStore 1234 "C-001").2) :=
  getOrInit_idempotent initialStore 1234 "C-001" ["C-001", "C-002"]
    (by decide) (by decide) (by decide)

/-- C10: a close request on an already-closed cell skips the status
write (the stored status was and remains closed, and the resulting
store is exactly the single pin write) but still overwrites the pin
with the masked sentinel, silently revoking any assigned pin; all
other records are untouched. -/
theorem close_on_closed_masks (st : Store) (lid : Int) (cid : String) (cells : List String)
    (p : String)
    (hl : initLocker st lid = .ok cells) (hm : cid ∈ cells)
    (hs : cellStatus st lid cid = some CLOSED_CELL)
    (hp : cellPin st lid cid = some p) :
    setCellStatus st lid cid CLOSED_CELL = (.ok (), hsetPin st lid cid MASKED_PIN)
    ∧ cellStatus (setCellStatus st lid cid CLOSED_CELL).2 lid cid = some CLOSED_CELL
    ∧ cellPin (setCellStatus st lid cid CLOSED_CELL).2 lid cid = some MASKED_PIN
    ∧ (∀ k : Int × String, k ≠ (lid, cid) →
        alookup (setCellStatus st lid cid CLOSED_CELL).2.cells k = alookup st.cells k) := by
  have hic := initCell_present st lid cells cid CLOSED_CELL p hm hs (by decide) hp
  have heval : setCellStatus st lid cid CLOSED_CELL
      = (.ok (), statusWritePhase st lid cid CLOSED_CELL CLOSED_CELL) := by
    unfold setCellStatus
    rw [hl]
    dsimp only
    rw [hic]
  have hwp : statusWritePhase st lid cid CLOSED_CELL CLOSED_CELL
      = hsetPin st lid cid MASKED_PIN := by
    unfold statusWritePhase
    rw [if_pos rfl, if_neg (by decide : ¬((CLOSED_CELL != CLOSED_CELL) = true))]
  refine ⟨by rw [heval, hwp], ?_, ?_, ?_⟩
  · rw [heval, hwp]
    show cellStatus (hsetPin st lid cid MASKED_PIN) lid cid = some CLOSED_CELL
    rw [cellStatus_hsetPin]
    exact hs
  · rw [heval, hwp]
    exact cellPin_hsetPin_self ..
  · intro k hk
    rw [heval, hwp]
    exact alookup_hsetPin_ne _ _ _ _ _ hk

theorem close_on_closed_masks_witness :
    cellPin (setCellStatus closedPinStore 7 "A" CLOSED_CELL).2 7 "A" = some MASKED_PIN
    ∧ cellStatus (setCellStatus closedPinStore 7 "A" CLOSED_CELL).2 7 "A"
        = some CLOSED_CELL := by
  have h := close_on_closed_masks closedPinStore 7 "A" ["A"] "222222" (by decide) (by decide)
      (by decide) (by decide)
  exact ⟨h.2.2.1, h.2.1⟩

/-- C4: closing a member cell of a resolved locker succeeds and always
leaves `"xxxxxx"` as that cell's stored pin, whatever the prior pin
was, touching no other record; and neither sentinel can ever be matched
by an `enterPin` call, which rejects both as InvalidPin before reading
any state.  Scenario C is the witness. -/
theorem close_masks_pin (st : Store) (lid : Int) (cid : String) (cells : List String)
    (hl : initLocker st lid = .ok cells) (hm : cid ∈ cells)
    (hw : pyTruthy (cellStatus st lid cid) = true → cellPin st lid cid ≠ none) :
    (setCellStatus st lid cid CLOSED_CELL).1 = .ok ()
    ∧ cellPin (setCellStatus st lid cid CLOSED_CELL).2 lid cid = some MASKED_PIN
    ∧ (∀ k : Int × String, k ≠ (lid, cid) →
        alookup (setCellStatus st lid cid CLOSED_CELL).2.cells k = alookup st.cells k)
    ∧ (∀ st2 : Store, ∀ lid2 : Int,
        enterPin st2 lid2 UNSET_PIN = (.error .invalidPin, st2)
        ∧ enterPin st2 lid2 MASKED_PIN = (.error .invalidPin, st2)) := by
  have hlast : ∀ st2 : Store, ∀ lid2 : Int,
      enterPin st2 lid2 UNSET_PIN = (.error .invalidPin, st2)
      ∧ enterPin st2 lid2 MASKED_PIN = (.error .invalidPin, st2) := by
    intro st2 lid2
    exact ⟨enterPin_invalid st2 lid2 UNSET_PIN (by decide),
           enterPin_invalid st2 lid2 MASKED_PIN (by decide)⟩
  by_cases hs : pyTruthy (cellStatus st lid cid) = true
  · obtain ⟨s, hsEq, hsne⟩ := pyTruthy_some hs
    obtain ⟨p, hpEq⟩ : ∃ p, cellPin st lid cid = some p := by
      cases hp2 : cellPin st lid cid with
      | none => exact absurd hp2 (hw hs)
      | some q => exact ⟨q, rfl⟩
    have hic := initCell_present st lid cells cid s p hm hsEq hsne hpEq
    have heval : setCellStatus st lid cid CLOSED_CELL
        = (.ok (), statusWritePhase st lid cid s CLOSED_CELL) := by
      unfold setCellStatus
      rw [hl]
      dsimp only
      rw [hic]
    refine ⟨by rw [heval], ?_, ?_, hlast⟩
    · rw [heval]
      exact cellPin_statusWritePhase_closed st lid cid s
    · intro k hk
      rw [heval]
      exact alookup_statusWritePhase_ne st lid cid s CLOSED_CELL k hk
  · have hs2 : pyTruthy (cellStatus st lid cid) = false := by
      cases h2 : pyTruthy (cellStatus st lid cid)
      · rfl
      · exact absurd h2 hs
    have hic := initCell_fresh st lid cells cid hm hs2
    have heval : setCellStatus st lid cid CLOSED_CELL
        = (.ok (), statusWritePhase
            (hsetPin (hsetStatus st lid cid CLOSED_CELL) lid cid UNSET_PIN)
            lid cid CLOSED_CELL CLOSED_CELL) := by
      unfold setCellStatus
      rw [hl]
      dsimp only
      rw [hic]
    refine ⟨by rw [heval], ?_, ?_, hlast⟩
    · rw [heval]
      exact cellPin_statusWritePhase_closed _ lid cid CLOSED_CELL
    · intro k hk
      rw [heval]
      show alookup (statusWritePhase
          (hsetPin (hsetStatus st lid cid CLOSED_CELL) lid cid UNSET_PIN)
          lid cid CLOSED_CELL CLOSED_CELL).cells k = alookup st.cells k
      rw [alookup_statusWritePhase_ne _ lid cid CLOSED_CELL CLOSED_CELL k hk,
          alookup_hsetPin_ne _ _ _ _ _ hk, alookup_hsetStatus_ne _ _ _ _ _ hk]

set_option maxRecDepth 100000 in
theorem close_masks_pin_witness :
    cellPin (setCellStatus scenB 1234 "C-001" CLOSED_CELL).2 1234 "C-001" = some MASKED_PIN
    ∧ enterPin scenC 1234 "111111" = (.error .pinNoMatch, scenC) := by
  constructor
  · exact (close_masks_pin scenB 1234 "C-001" ["C-001", "C-002"] (by decide) (by decide)
      (by decide)).2.1
  · decide

/-- C2: for a resolved locker (whose cell set has no empty identifier)
satisfying pin distinctness and a pin accepted by `validatePin`,
`enterPin` fails with PinNoMatch when no cell of the locker stores the
pin; when some cell stores it, that cell is unique, `enterPin` returns
its id and sets its status to open, leaving every pin (that cell's
included) and every other cell record unchanged.  Scenario B is the
witness. -/
theorem enterPin_correct (st : Store) (lid : Int) (pin : String) (cells : List String)
    (hv : validatePin pin = .ok ())
    (hl : initLocker st lid = .ok cells)
    (hne : "" ∉ cells)
    (hd : pinsDistinct st lid) :
    ((∀ c ∈ cells, cellPin st lid c ≠ some pin) →
        enterPin st lid pin = (.error .pinNoMatch, st))
    ∧ (∀ c ∈ cells, cellPin st lid c = some pin →
        enterPin st lid pin = (.ok c, hsetStatus st lid c OPEN_CELL)
        ∧ cellStatus (enterPin st lid pin).2 lid c = some OPEN_CELL
        ∧ (∀ l : Int, ∀ x : String, cellPin (enterPin st lid pin).2 l x = cellPin st l x)
        ∧ (∀ k : Int × String, k ≠ (lid, c) →
            alookup (enterPin st lid pin).2.cells k = alookup st.cells k)) := by
  have hmatch : pyMatchSixDigits pin = true := validatePin_eq_ok hv
  have hpe : pin ≠ "" := pyMatch_ne_empty hmatch
  have hps : isSentinel pin = false := pyMatch_not_sentinel hmatch
  have hcl : lockerCellList st lid = cells := initLocker_ok_cellList st lid cells hl
  constructor
  · intro hno
    have hnotmem : pin ∉ (getAllPins st lid "" cells).1 := by
      rw [mem_getAllPins_fst]
      rintro ⟨c, hm, hc, hp, _⟩
      exact hno c hm hp
    unfold enterPin
    rw [hv, hl]
    dsimp only
    rw [if_neg hnotmem]
  · intro c hm hp
    have hmem : pin ∈ (getAllPins st lid "" cells).1 := by
      rw [mem_getAllPins_fst]
      exact ⟨c, hm, fun hc => hne (hc ▸ hm), hp, hpe⟩
    have hisSome := alookup_getAllPins_isSome st lid "" cells pin hmem
    cases halp : alookup (getAllPins st lid "" cells).2 pin with
    | none =>
      rw [halp] at hisSome
      exact absurd hisSome (by decide)
    | some c2 =>
      have hsound := alookup_getAllPins_snd st lid "" cells pin c2 halp
      have hc2 : c2 = c := by
        by_contra hcc
        exact hd c2 c (by rw [hcl]; exact hsound.1) (by rw [hcl]; exact hm) hcc pin pin
          hsound.2.2.1 hp hps hps rfl
      subst hc2
      have heval : enterPin st lid pin = (.ok c2, hsetStatus st lid c2 OPEN_CELL) := by
        unfold enterPin
        rw [hv, hl]
        dsimp only
        rw [if_pos hmem, halp]
      refine ⟨heval, ?_, ?_, ?_⟩
      · rw [heval]
        exact cellStatus_hsetStatus_self ..
      · intro l x
        rw [heval]
        exact cellPin_hsetStatus ..
      · intro k hk
        rw [heval]
        exact alookup_hsetStatus_ne _ _ _ _ _ hk

set_option maxRecDepth 100000 in
theorem enterPin_correct_witness :
    enterPin scenA 1234 "111111" = (.ok "C-001", hsetStatus scenA 1234 "C-001" OPEN_CELL)
    ∧ cellStatus (enterPin scenA 1234 "111111").2 1234 "C-001" = some OPEN_CELL := by
  have h := (enterPin_correct scenA 1234 "111111" ["C-001", "C-002"]
      (by decide) (by decide) (by decide) pinsDistinct_scenA).2 "C-001"
      (by decide) (by decide)
  exact ⟨h.1, h.2.1⟩

/-- C3: for a resolved locker, a member cell whose record is
well-formed, and a pin accepted by `validatePin`, `setCellPin` fails
with PinConflict exactly when the pin is already stored by another cell
of the locker, and then leaves the observable state of every cell
unchanged (the only physical write is the lazy initialization of the
target cell, which §3 declares equivalent to the missing record);
otherwise it stores the pin on the target cell, leaves the cell's
observable status and every other record unchanged, and returns the
current status paired with the new pin.  Scenario A is the witness. -/
theorem setCellPin_correct (st : Store) (lid : Int) (cid : String) (np : String)
    (cells : List String)
    (hv : validatePin np = .ok ())
    (hl : initLocker st lid = .ok cells)
    (hm : cid ∈ cells)
    (hw : pyTruthy (cellStatus st lid cid) = true → cellPin st lid cid ≠ none) :
    ((∃ c, c ∈ cells ∧ c ≠ cid ∧ cellPin st lid c = some np) →
        (setCellPin st lid cid np).1 = .error .pinConflict
        ∧ (∀ l : Int, ∀ x : String, cellView (setCellPin st lid cid np).2 l x
            = cellView st l x))
    ∧ ((∀ c ∈ cells, c ≠ cid → cellPin st lid c ≠ some np) →
        (setCellPin st lid cid np).1 = .ok ((cellView st lid cid).1, np)
        ∧ cellPin (setCellPin st lid cid np).2 lid cid = some np
        ∧ (cellView (setCellPin st lid cid np).2 lid cid).1 = (cellView st lid cid).1
        ∧ (∀ k : Int × String, k ≠ (lid, cid) →
            alookup (setCellPin st lid cid np).2.cells k = alookup st.cells k)) := by
  have hmatch : pyMatchSixDigits np = true := validatePin_eq_ok hv
  have hnpe : np ≠ "" := pyMatch_ne_empty hmatch
  by_cases hs : pyTruthy (cellStatus st lid cid) = true
  · obtain ⟨s, hsEq, hsne⟩ := pyTruthy_some hs
    obtain ⟨p, hpEq⟩ : ∃ p, cellPin st lid cid = some p := by
      cases hp2 : cellPin st lid cid with
      | none => exact absurd hp2 (hw hs)
      | some q => exact ⟨q, rfl⟩
    have hic := initCell_present st lid cells cid s p hm hsEq hsne hpEq
    have hview : cellView st lid cid = (s, cellPin st lid cid) :=
      cellView_of_truthy st lid cid s hsEq hsne
    have hevalC : np ∈ (getAllPins st lid cid cells).1 →
        setCellPin st lid cid np = (.error .pinConflict, st) := by
      intro hmem
      unfold setCellPin
      rw [hv, hl]
      dsimp only
      rw [hic]
      dsimp only
      rw [if_pos hmem]
    have hevalS : np ∉ (getAllPins st lid cid cells).1 →
        setCellPin st lid cid np = (.ok (s, np), hsetPin st lid cid np) := by
      intro hmem
      unfold setCellPin
      rw [hv, hl]
      dsimp only
      rw [hic]
      dsimp only
      rw [if_neg hmem]
    have hmemIff : np ∈ (getAllPins st lid cid cells).1 ↔
        ∃ c, c ∈ cells ∧ c ≠ cid ∧ cellPin st lid c = some np := by
      rw [mem_getAllPins_fst]
      constructor
      · rintro ⟨c, hmc, hcc, hpc, _⟩
        exact ⟨c, hmc, hcc, hpc⟩
      · rintro ⟨c, hmc, hcc, hpc⟩
        exact ⟨c, hmc, hcc, hpc, hnpe⟩
    constructor
    · intro hex
      have hmem := hmemIff.mpr hex
      refine ⟨by rw [hevalC hmem], ?_⟩
      intro l x
      rw [hevalC hmem]
    · intro hno
      have hnm : np ∉ (getAllPins st lid cid cells).1 := by
        intro hmem2
        obtain ⟨c, hmc, hcc, hpc⟩ := hmemIff.mp hmem2
        exact hno c hmc hcc hpc
      have he := hevalS hnm
      refine ⟨by rw [he, hview], ?_, ?_, ?_⟩
      · rw [he]
        exact cellPin_hsetPin_self ..
      · rw [he]
        exact cellView_fst_hsetPin st lid cid np
      · intro k hk
        rw [he]
        exact alookup_hsetPin_ne _ _ _ _ _ hk
  · have hs2 : pyTruthy (cellStatus st lid cid) = false := by
      cases h2 : pyTruthy (cellStatus st lid cid)
      · rfl
      · exact absurd h2 hs
    have hic := initCell_fresh st lid cells cid hm hs2
    have hview : cellView st lid cid = (CLOSED_CELL, some UNSET_PIN) :=
      cellView_of_falsy st lid cid hs2
    have htrans : ∀ c, c ≠ cid →
        cellPin (hsetPin (hsetStatus st lid cid CLOSED_CELL) lid cid UNSET_PIN) lid c
          = cellPin st lid c := by
      intro c hc
      have hk : (lid, c) ≠ (lid, cid) := by
        intro hke
        injection hke with h1 h2
        exact hc h2
      rw [cellPin_hsetPin_ne _ _ _ _ _ _ hk, cellPin_hsetStatus]
    have hviewI : ∀ l : Int, ∀ x : String,
        cellView (hsetPin (hsetStatus st lid cid CLOSED_CELL) lid cid UNSET_PIN) l x
          = cellView st l x := by
      intro l x
      have h2 := cellView_initCell st lid cells cid l x
      rw [hic] at h2
      exact h2
    have hevalC : np ∈ (getAllPins
          (hsetPin (hsetStatus st lid cid CLOSED_CELL) lid cid UNSET_PIN) lid cid cells).1 →
        setCellPin st lid cid np = (.error .pinConflict,
          hsetPin (hsetStatus st lid cid CLOSED_CELL) lid cid UNSET_PIN) := by
      intro hmem
      unfold setCellPin
      rw [hv, hl]
      dsimp only
      rw [hic]
      dsimp only
      rw [if_pos hmem]
    have hevalS : np ∉ (getAllPins
          (hsetPin (hsetStatus st lid cid CLOSED_CELL) lid cid UNSET_PIN) lid cid cells).1 →
        setCellPin st lid cid np = (.ok (CLOSED_CELL, np),
          hsetPin (hsetPin (hsetStatus st lid cid CLOSED_CELL) lid cid UNSET_PIN)
            lid cid np) := by
      intro hmem
      unfold setCellPin
      rw [hv, hl]
      dsimp only
      rw [hic]
      dsimp only
      rw [if_neg hmem]
    have hmemIff : np ∈ (getAllPins
          (hsetPin (hsetStatus st lid cid CLOSED_CELL) lid cid UNSET_PIN) lid cid cells).1 ↔
        ∃ c, c ∈ cells ∧ c ≠ cid ∧ cellPin st lid c = some np := by
      rw [mem_getAllPins_fst]
      constructor
      · rintro ⟨c, hmc, hcc, hpc, _⟩
        rw [htrans c hcc] at hpc
        exact ⟨c, hmc, hcc, hpc⟩
      · rintro ⟨c, hmc, hcc, hpc⟩
        refine ⟨c, hmc, hcc, ?_, hnpe⟩
        rw [htrans c hcc]
        exact hpc
    constructor
    · intro hex
      have hmem := hmemIff.mpr hex
      refine ⟨by rw [hevalC hmem], ?_⟩
      intro l x
      rw [hevalC hmem]
      exact hviewI l x
    · intro hno
      have hnm : np ∉ (getAllPins
          (hsetPin (hsetStatus st lid cid CLOSED_CELL) lid cid UNSET_PIN) lid cid cells).1 := by
        intro hmem2
        obtain ⟨c, hmc, hcc, hpc⟩ := hmemIff.mp hmem2
        exact hno c hmc hcc hpc
      have he := hevalS hnm
      refine ⟨by rw [he, hview], ?_, ?_, ?_⟩
      · rw [he]
        exact cellPin_hsetPin_self ..
      · rw [he, cellView_fst_hsetPin, hviewI lid cid]
      · intro k hk
        rw [he, alookup_hsetPin_ne _ _ _ _ _ hk]
        have h2 := alookup_initCell_ne st lid cells cid k hk
        rw [hic] at h2
        exact h2

set_option maxRecDepth 100000 in
theorem setCellPin_correct_witness :
    (setCellPin initialStore 1234 "C-001" "111111").1 = .ok ("closed", "111111")
    ∧ (setCellPin scenA1 1234 "C-002" "111111").1 = .error .pinConflict := by
  constructor
  · have h := (setCellPin_correct initialStore 1234 "C-001" "111111" ["C-001", "C-002"]
        (by decide) (by decide) (by decide) (by decide)).2 (by decide)
    have h2 := h.1
    have h3 : (cellView initialStore 1234 "C-001").1 = "closed" := rfl
    rw [h3] at h2
    exact h2
  · have h := (setCellPin_correct scenA1 1234 "C-002" "111111" ["C-001", "C-002"]
        (by decide) (by decide) (by decide) (by decide)).1
        ⟨"C-001", by decide, by decide, by decide⟩
    exact h.1

/-- C5 counterexample: the claim says every string that is not exactly
6 ASCII digits is rejected, but `"123456\n"` (7 characters, trailing
newline) is accepted because Python `$` also matches just before a
newline that terminates the string, and the six Arabic-Indic digits
`"١٢٣٤٥٦"` (none of them an ASCII digit) are accepted because the
`str`-pattern `\d` matches every Unicode decimal digit. -/
theorem validatePin_claim_counterexample :
    (validatePin "123456\n" = .ok () ∧ "123456\n".length = 7)
    ∧ (validatePin "١٢٣٤٥٦" = .ok () ∧ "١٢٣٤٥٦".length = 6
       ∧ ∀ c ∈ "١٢٣٤٥٦".data, c.isDigit = false) := by decide

/-- C5 amended: `validatePin` succeeds exactly when the string is six
Unicode decimal digits (category Nd, what the Python `str`-pattern
`\d` matches), or six such digits followed by one trailing newline
(Python `$` semantics). -/
theorem validatePin_amended (s : String) :
    validatePin s = .ok () ↔
      ((s.length = 6 ∧ ∀ c ∈ s.data, pyDigit c = true) ∨
       (s.length = 7 ∧ (∀ c ∈ s.data.take 6, pyDigit c = true) ∧
        s.data.drop 6 = ['\n'])) := by
  have h1 : validatePin s = .ok () ↔ pyMatchSixDigits s = true := by
    unfold validatePin
    by_cases h : pyMatchSixDigits s = true
    · rw [if_pos h]
      simp [h]
    · rw [if_neg h]
      simp [h]
  rw [h1]
  unfold pyMatchSixDigits
  have hlen : s.length = s.data.length := rfl
  rw [hlen]
  simp [List.all_eq_true]
  tauto

/-- C6 counterexample: the claim says sentinel pins are omitted from the
mapping built by `getAllPins`, but a cell storing the unset sentinel
contributes it to both the pin set and the pin-to-cell mapping. -/
theorem getAllPins_sentinel_counterexample :
    UNSET_PIN ∈ (getAllPins sentinelStore 1 "" (lockerCellList sentinelStore 1)).1
    ∧ alookup (getAllPins sentinelStore 1 "" (lockerCellList sentinelStore 1)).2 UNSET_PIN
        = some "A"
    ∧ isSentinel UNSET_PIN = true := by decide

/-- C6 amended: the pin set and pin-to-cell mapping built by
`getAllPins` contain exactly the cells of the scanned set, other than
the excluded id, whose stored `pin` field is present and non-empty —
including cells whose stored pin is a sentinel; only an absent or empty
field is omitted.  (Sentinels still never match a validated pin, which
is never a sentinel.) -/
theorem getAllPins_amended (st : Store) (lid : Int) (skip : String) (cells : List String)
    (p : String) (c : String) :
    (p ∈ (getAllPins st lid skip cells).1 ↔
      ∃ c2, c2 ∈ cells ∧ c2 ≠ skip ∧ cellPin st lid c2 = some p ∧ p ≠ "")
    ∧ (alookup (getAllPins st lid skip cells).2 p = some c →
        c ∈ cells ∧ c ≠ skip ∧ cellPin st lid c = some p ∧ p ≠ "")
    ∧ (p ∈ (getAllPins st lid skip cells).1 →
        (alookup (getAllPins st lid skip cells).2 p).isSome = true) :=
  ⟨mem_getAllPins_fst st lid skip cells p,
   alookup_getAllPins_snd st lid skip cells p c,
   alookup_getAllPins_isSome st lid skip cells p⟩

theorem getAllPins_amended_witness :
    "A" ∈ lockerCellList sentinelStore 1 ∧ "A" ≠ "" ∧
      cellPin sentinelStore 1 "A" = some UNSET_PIN ∧ UNSET_PIN ≠ "" :=
  (getAllPins_amended sentinelStore 1 "" (lockerCellList sentinelStore 1) UNSET_PIN "A").2.1
    (by decide)

end LockerService
